import Mathlib

/-!
Shallow embedding of the whitref-campfin-extract scraper core
(src/lib/scraper.ts and the run loop of src/commands/scrape.ts).

JavaScript strings are modelled as Lean `String` (a list of characters),
byte buffers as `List Nat`, nullable values as `Option`, and code that can
throw as `Except String`.  The browser, the SQLite store and the clock are
external collaborators; they enter the model as explicit environment
records whose fields are the results the collaborator hands back to the
code under verification.
-/

/-- Whitespace test used by the JavaScript `String.prototype.trim`
(space, tab, line feed, carriage return are the characters that occur in
DOM text). -/
def isWs (c : Char) : Bool :=
  c.toNat = 32 || c.toNat = 9 || c.toNat = 10 || c.toNat = 13

/-- Model of `text.trim()`: drop whitespace from both ends. -/
def jsTrim (l : List Char) : List Char :=
  ((l.dropWhile isWs).reverse.dropWhile isWs).reverse

/-- String-level `trim`. -/
def jsTrimStr (s : String) : String := ⟨jsTrim s.data⟩

/-- Decimal digit test (the regex class `\d` and the digits of `parseInt`). -/
def digitChar (c : Char) : Bool := 48 ≤ c.toNat && c.toNat ≤ 57

/-- Model of `str.split(sep)` on the character list: JavaScript split with a
one-character separator; `"".split(sep)` gives `[""]`, and a trailing
separator yields a trailing empty field. -/
def splitChars (sep : Char) : List Char → List (List Char)
  | [] => [[]]
  | c :: rest =>
    if c = sep then [] :: splitChars sep rest
    else
      match splitChars sep rest with
      | [] => [[c]]
      | g :: gs => (c :: g) :: gs

/-- String-level `split`. -/
def jsSplit (sep : Char) (s : String) : List String :=
  (splitChars sep s.data).map (fun l => ⟨l⟩)

/-- Model of `s.padStart(n, c)`. -/
def padStart (n : Nat) (c : Char) (s : String) : String :=
  if n ≤ s.length then s else ⟨List.replicate (n - s.length) c ++ s.data⟩

/-- JavaScript falsiness of a nullable string (`null`/`undefined` and `""`
are falsy). -/
def jsFalsy : Option String → Bool
  | none => true
  | some s => s == ""

/-- Template-literal interpolation of a possibly-`undefined` string
(`undefined` prints as the text "undefined", which is what the code does
to a missing year field). -/
def jsUndefOr : Option String → String
  | none => "undefined"
  | some s => s

/-- Model of `text?.trim() || ''` applied to an optional column text. -/
def optText : Option String → String
  | none => ""
  | some s => jsTrimStr s

/-- One logical filing entry (interface FilingRecord, src/lib/scraper.ts). -/
structure FilingRecord where
  formType : String
  filingDate : String
  filerName : String
  candidateLastName : String
  candidateFirstName : String
  candidateMiddleName : String
deriving Repr, DecidableEq

/-- Embedding of `extractFilingRecord` (src/lib/scraper.ts lines 104-136).
The function destructures `filingDateText.trim().split('/')` into
month/day/year without validation; when the split yields no second field,
`day` is `undefined` and `day.padStart` throws a TypeError, modelled as
`Except.error "TypeError"`.  A missing third field interpolates as the
text "undefined".  The `month` field always exists because `split` never
returns an empty array. -/
def extractFilingRecord (formTypeText filingDateText filerNameText
    candidateLastNameText candidateFirstNameText candidateMiddleNameText :
    Option String) : Except String (Option FilingRecord) :=
  if jsFalsy filingDateText || jsFalsy formTypeText then .ok none
  else
    let parts := jsSplit '/' (jsTrimStr (filingDateText.getD ""))
    let month := parts.headD ""
    match parts[1]? with
    | none => .error "TypeError"
    | some day =>
      let filingDate :=
        jsUndefOr parts[2]? ++ "-" ++ padStart 2 '0' month ++ "-" ++
          padStart 2 '0' day
      .ok (some ⟨jsTrimStr (formTypeText.getD ""), filingDate,
        optText filerNameText, optText candidateLastNameText,
        optText candidateFirstNameText, optText candidateMiddleNameText⟩)

/-- Embedding of `convertDateFormat` (src/lib/scraper.ts lines 16-19):
split the ISO date on dashes and rebuild as MM/DD/YYYY; missing fields
interpolate as "undefined". -/
def convertDateFormat (isoDate : String) : String :=
  let parts := jsSplit '-' isoDate
  jsUndefOr parts[1]? ++ "/" ++ jsUndefOr parts[2]? ++ "/" ++
    jsUndefOr parts[0]?

/-- Lowercase hexadecimal digit (the regex class used by the session-key
pattern). -/
def hexLowerChar (c : Char) : Bool :=
  (48 ≤ c.toNat && c.toNat ≤ 57) || (97 ≤ c.toNat && c.toNat ≤ 102)

/-- After the literal "PdfHandler.axd", the regex
`[^?]*\?key=([a-f0-9]{32})` consumes up to the first question mark, then
requires the literal "?key=" followed by exactly 32 lowercase hex digits
(the capture).  Because the class `[^?]` cannot match a question mark the
greedy star is deterministic. -/
def matchKeyTail (l : List Char) : Option (List Char) :=
  let afterSkip := l.dropWhile (fun c => c ≠ '?')
  match afterSkip with
  | '?' :: 'k' :: 'e' :: 'y' :: '=' :: rest =>
    let candidate := rest.take 32
    if candidate.length = 32 && candidate.all hexLowerChar then
      some candidate
    else none
  | _ => none

/-- Consume an expected literal from the front of the input, returning the
remainder on success (helper for modelling regex literals). -/
def litStrip : List Char → List Char → Option (List Char)
  | [], l => some l
  | _ :: _, [] => none
  | c :: cs, x :: xs => if x = c then litStrip cs xs else none

/-- Scan for the first position at which the full session-key pattern
matches, the way an (unanchored) JavaScript regex search does. -/
def findSessionKey : List Char → Option (List Char)
  | [] => none
  | c :: rest =>
    match litStrip "PdfHandler.axd".data (c :: rest) with
    | some tail =>
      match matchKeyTail tail with
      | some k => some k
      | none => findSessionKey rest
    | none => findSessionKey rest

/-- Embedding of `extractSessionKey` (src/lib/scraper.ts lines 167-170):
first match of `/PdfHandler\.axd[^?]*\?key=([a-f0-9]{32})/`, returning the
captured 32-character key, else null. -/
def extractSessionKey (pdfUrl : String) : Option String :=
  (findSessionKey pdfUrl.data).map (fun l => ⟨l⟩)

/-- Embedding of `buildDownloadUrl` (src/lib/scraper.ts lines 175-177). -/
def buildDownloadUrl (key : String) : String :=
  "https://www.southtechhosting.com/WhittierCity/CampaignDocsWebRetrieval/PdfHandler.axd?key="
    ++ key ++ "PdfDownloadSessionKey&download=True&fileName=Form"

/-- Embedding of `isValidPdf` (src/lib/scraper.ts lines 197-203).  A byte
buffer is a `List Nat`; reading past the end of a JavaScript buffer gives
`undefined`, which compares unequal to every byte, but the length guard
makes the default value irrelevant. -/
def isValidPdf (buffer : List Nat) : Bool :=
  decide (100 < buffer.length) && buffer.getD 0 0 == 0x25 &&
    buffer.getD 1 0 == 0x50 && buffer.getD 2 0 == 0x44 &&
    buffer.getD 3 0 == 0x46

/-- One row of the `filings` metadata table (schema in `initDatabase`,
src/lib/scraper.ts lines 32-45). -/
structure FilingRow where
  rowId : Nat
  form_type : String
  filing_date : String
  filer_name : String
  candidate_last_name : String
  candidate_first_name : String
  candidate_middle_name : String
  file_name : String
deriving Repr, DecidableEq

/-- The natural key of a stored row: the column tuple of the schema's
UNIQUE constraint. -/
def keyOf (r : FilingRow) : List String :=
  [r.form_type, r.filing_date, r.filer_name, r.candidate_last_name,
    r.candidate_first_name]

/-- The natural key of a parsed record, in the same column order. -/
def recKeyOf (r : FilingRecord) : List String :=
  [r.formType, r.filingDate, r.filerName, r.candidateLastName,
    r.candidateFirstName]

/-- The SQLite database state: the `filings` table, the `filing_pdfs`
table (association of filing id to blob bytes) and the next AUTOINCREMENT
identity. -/
structure Db where
  filings : List FilingRow
  filing_pdfs : List (Nat × List Nat)
  nextId : Nat
deriving Repr

/-- The derived file name (src/lib/scraper.ts line 69). -/
def pdfFileName (record : FilingRecord) : String :=
  record.filingDate ++ "." ++ record.filerName ++ "." ++ record.formType
    ++ ".pdf"

/-- The UPDATE half of the upsert: `DO UPDATE SET file_name =
excluded.file_name` touches only the file_name column. -/
def setFileName (v : String) (r : FilingRow) : FilingRow :=
  ⟨r.rowId, r.form_type, r.filing_date, r.filer_name,
    r.candidate_last_name, r.candidate_first_name, r.candidate_middle_name,
    v⟩

/-- The row the `ON CONFLICT` clause fires on: the stored row whose natural
key equals the incoming record's key (unique by the schema constraint). -/
def findConflict (filings : List FilingRow) (k : List String) :
    Option FilingRow :=
  filings.find? (fun row => keyOf row == k)

/-- The first prepared statement of `savePdfToDb`: INSERT the metadata row,
ON CONFLICT update the file name; RETURNING id in either case. -/
def upsertFiling (db : Db) (record : FilingRecord) (filename : String) :
    Db × Nat :=
  match findConflict db.filings (recKeyOf record) with
  | some row =>
    (⟨db.filings.map
        (fun r => if keyOf r == recKeyOf record then setFileName filename r
          else r),
      db.filing_pdfs, db.nextId⟩, row.rowId)
  | none =>
    (⟨db.filings ++
        [⟨db.nextId, record.formType, record.filingDate, record.filerName,
          record.candidateLastName, record.candidateFirstName,
          record.candidateMiddleName, filename⟩],
      db.filing_pdfs, db.nextId + 1⟩, db.nextId)

/-- The second prepared statement: `INSERT OR REPLACE INTO filing_pdfs`,
keyed on the filing id. -/
def replaceBlob (pdfs : List (Nat × List Nat)) (fid : Nat)
    (blob : List Nat) : List (Nat × List Nat) :=
  if pdfs.any (fun p => p.1 == fid) then
    pdfs.map (fun p => if p.1 == fid then (fid, blob) else p)
  else pdfs ++ [(fid, blob)]

/-- Look up the blob stored for a filing id. -/
def lookupBlob (pdfs : List (Nat × List Nat)) (fid : Nat) :
    Option (List Nat) :=
  (pdfs.find? (fun p => p.1 == fid)).map (fun p => p.2)

/-- Embedding of `savePdfToDb` (src/lib/scraper.ts lines 63-99): with no
database handle the call is a no-op (dry-run mode); otherwise upsert the
metadata row and replace the blob keyed on the returned identity. -/
def savePdfToDb (db : Option Db) (record : FilingRecord)
    (pdfBuffer : List Nat) : Option Db :=
  match db with
  | none => none
  | some db =>
    let pair := upsertFiling db record (pdfFileName record)
    some ⟨pair.1.filings, replaceBlob pair.1.filing_pdfs pair.2 pdfBuffer,
      pair.1.nextId⟩

/-- The schema invariant enforced by the UNIQUE constraint: no two stored
rows share a natural key. -/
def DbWF (db : Db) : Prop :=
  db.filings.Pairwise (fun a b => keyOf a ≠ keyOf b)

/-- One content frame as the pipeline sees it: either the frame is
inaccessible (the locator throws, caught per-frame), or it reports the
count of the first pdf-object locator together with the value of its
`data` attribute. -/
structure Frame where
  access : Except String (Nat × Option String)

/-- Embedding of `extractPdfUrlFromIframe` (src/lib/scraper.ts lines
141-162): one pass over the currently attached frames; a frame whose
locator throws is skipped, a present pdf object with a truthy `data`
attribute returns that URL, anything else falls through to the next
frame; no retry. -/
def extractPdfUrlFromIframe : List Frame → Option String
  | [] => none
  | f :: rest =>
    match f.access with
    | .error _ => extractPdfUrlFromIframe rest
    | .ok (count, data) =>
      if 0 < count then
        match data with
        | some url => if url = "" then extractPdfUrlFromIframe rest
          else some url
        | none => extractPdfUrlFromIframe rest
      else extractPdfUrlFromIframe rest

/-- Environment of one `processFilingRecord` call.  Each field is what the
corresponding awaited collaborator call produces; `frameSeq t` is the list
of frames that would be attached at the t-th poll attempt (the code only
ever looks at attempt 0).  `fetchStep` maps the download URL to the bytes
the in-page fetch returns, `persistStep` is the database write. -/
structure PipelineEnv where
  clickStep : Except String Unit
  settleStep : Except String Unit
  frameSeq : Nat → List Frame
  fetchStep : String → Except String (List Nat)
  persistStep : List Nat → Except String Unit

/-- Outcome of one pipeline row: SUCCESS/SKIPPED plus whether the document
view was dismissed (the Escape press). -/
structure PipelineOutcome where
  success : Bool
  viewClosed : Bool
deriving Repr, DecidableEq

/-- The try-block of `processFilingRecord` (src/lib/scraper.ts lines
215-279): click, settle, a single frame scan, key extraction, URL build,
fetch, validation, persist; every early exit presses Escape first. -/
def processBody (env : PipelineEnv) : Except String PipelineOutcome :=
  match env.clickStep with
  | .error e => .error e
  | .ok _ =>
    match env.settleStep with
    | .error e => .error e
    | .ok _ =>
      match extractPdfUrlFromIframe (env.frameSeq 0) with
      | none => .ok ⟨false, true⟩
      | some pdfUrl =>
        match extractSessionKey pdfUrl with
        | none => .ok ⟨false, true⟩
        | some key =>
          match env.fetchStep (buildDownloadUrl key) with
          | .error e => .error e
          | .ok buffer =>
            if isValidPdf buffer then
              match env.persistStep buffer with
              | .error e => .error e
              | .ok _ => .ok ⟨true, true⟩
            else .ok ⟨false, true⟩

/-- Embedding of `processFilingRecord` (src/lib/scraper.ts lines 208-288):
the whole body runs inside one try; the catch logs, presses Escape and
returns false, so the caller always receives a boolean. -/
def processFilingRecord (env : PipelineEnv) : Except String PipelineOutcome :=
  match processBody env with
  | .ok r => .ok r
  | .error _ => .ok ⟨false, true⟩

/-- The parsed pager summary (return shape of `getPaginationInfo`). -/
structure PaginationInfo where
  currentPage : Nat
  totalPages : Nat
  totalItems : Nat
deriving Repr, DecidableEq

/-- Value of `parseInt(digits, 10)` on a run of decimal digits. -/
def digitsToNat (l : List Char) : Nat :=
  l.foldl (fun n c => n * 10 + (c.toNat - 48)) 0

/-- Attempt to match the pager regex `Page (\d+) of (\d+) \((\d+) items\)`
at the head of the input.  Each `\d+` is a maximal digit run: the
character after each group in the pattern is not a digit, so greedy
matching is deterministic. -/
def matchPagerAt (l : List Char) : Option (Nat × Nat × Nat) :=
  match litStrip "Page ".data l with
  | none => none
  | some l1 =>
    let d1 := l1.takeWhile digitChar
    if d1.isEmpty then none else
    match litStrip " of ".data (l1.dropWhile digitChar) with
    | none => none
    | some l2 =>
      let d2 := l2.takeWhile digitChar
      if d2.isEmpty then none else
      match litStrip " (".data (l2.dropWhile digitChar) with
      | none => none
      | some l3 =>
        let d3 := l3.takeWhile digitChar
        if d3.isEmpty then none else
        match litStrip " items)".data (l3.dropWhile digitChar) with
        | none => none
        | some _ => some (digitsToNat d1, digitsToNat d2, digitsToNat d3)

/-- First position at which the pager pattern matches (unanchored regex
search). -/
def findPager : List Char → Option (Nat × Nat × Nat)
  | [] => none
  | c :: rest =>
    match matchPagerAt (c :: rest) with
    | some r => some r
    | none => findPager rest

/-- Embedding of `getPaginationInfo` (src/lib/scraper.ts lines 322-344).
The input is the text content of the pager summary element: `none` stands
for a missing element or locator timeout (the catch branch) as well as a
null text; an empty string is falsy and also yields null; otherwise the
summary is matched against the pager pattern. -/
def getPaginationInfo (pagerText : Option String) : Option PaginationInfo :=
  match pagerText with
  | none => none
  | some s =>
    if s = "" then none
    else
      match findPager s.data with
      | none => none
      | some (a, b, c) => some ⟨a, b, c⟩

/-- The run controller's page budget: `paginationInfo?.totalPages || 1`
(src/commands/scrape.ts line 97); a missing pager or a zero count falls
back to 1. -/
def reportedTotalPages (pagerText : Option String) : Nat :=
  match getPaginationInfo pagerText with
  | none => 1
  | some info => if info.totalPages = 0 then 1 else info.totalPages

/-- Observable result of one run of the page loop: total rows handed to
the page processor, number of `goToNextPage` calls, and number of times a
page was processed. -/
structure RunResult where
  rowsProcessed : Nat
  advanceCalls : Nat
  pagesVisited : Nat
deriving Repr, DecidableEq

/-- The `while (true)` loop of `scrapeCommand` (src/commands/scrape.ts
lines 100-124) over an abstract grid driver: `σ` is the browser's grid
state, `rows s` the number of rows the page processor handles on state
`s`, and `next s` the effect of `goToNextPage` (`none` when the enabled
Next button is absent, i.e. the call returns false).  The loop variable
`currentPage` starts at 1 and the loop breaks as soon as `currentPage ≥
totalPages`, so the fuel is exactly `totalPages - currentPage`; the
recursion is structural on that fuel, which is the code's own
termination argument (the counter increments every iteration). -/
def scrapeLoopAux {σ : Type} (rows : σ → Nat) (next : σ → Option σ) :
    Nat → σ → RunResult
  | 0, s => ⟨rows s, 0, 1⟩
  | fuel + 1, s =>
    match next s with
    | none => ⟨rows s, 1, 1⟩
    | some s' =>
      let rest := scrapeLoopAux rows next fuel s'
      ⟨rows s + rest.rowsProcessed, 1 + rest.advanceCalls,
        1 + rest.pagesVisited⟩

/-- The page loop started at page 1 with a reported total-page count. -/
def scrapeRun {σ : Type} (rows : σ → Nat) (next : σ → Option σ)
    (reported : Nat) (s : σ) : RunResult :=
  scrapeLoopAux rows next (reported - 1) s

/-- The loop as `scrapeCommand` assembles it: read the pager summary once
before the loop, apply the `|| 1` fallback, then drive the loop.  The
pagination state is never re-read inside the loop. -/
def scrapeCommandRun {σ : Type} (pagerText : Option String)
    (rows : σ → Nat) (next : σ → Option σ) (s : σ) : RunResult :=
  scrapeRun rows next (reportedTotalPages pagerText) s

/-- Honest grid driver for a simulated result set: state is the 0-based
actual page index, `pagedRows` the per-page row counts, and the Next
button exists exactly when a further page exists. -/
def pagedRows (pages : List Nat) (i : Nat) : Nat := pages.getD i 0

/-- Advance of the honest grid driver. -/
def pagedNext (pages : List Nat) (i : Nat) : Option Nat :=
  if i + 1 < pages.length then some (i + 1) else none

/-- The run on the honest driver, as invoked with a reported total. -/
def runScrape (pages : List Nat) (reported : Nat) : RunResult :=
  scrapeRun (pagedRows pages) (pagedNext pages) reported 0

/-- Every successful return of the pipeline body has dismissed the
document view: each `.ok` exit of the try-block presses Escape first. -/
lemma processBody_viewClosed (env : PipelineEnv) (out : PipelineOutcome)
    (h : processBody env = .ok out) : out.viewClosed = true := by
  unfold processBody at h
  repeat' split at h
  all_goals (try cases h)
  all_goals rfl

/-- C1: every run of the document fetch pipeline returns a boolean (never
propagates an exception) with the view dismissed, and whenever any step of
the try-block (click, settle wait, credential resolution, URL build,
fetch, validation, persist) raises, the pipeline returns the SKIPPED
outcome `false` with the view force-closed. -/
theorem pipeline_absorbs_errors (env : PipelineEnv) :
    (∃ out, processFilingRecord env = .ok out ∧ out.viewClosed = true) ∧
      (∀ e, processBody env = .error e →
        processFilingRecord env = .ok ⟨false, true⟩) := by
  constructor
  · unfold processFilingRecord
    match hb : processBody env with
    | .ok out => exact ⟨out, rfl, processBody_viewClosed env out hb⟩
    | .error e => exact ⟨⟨false, true⟩, rfl, rfl⟩
  · intro e he
    simp [processFilingRecord, he]

/-- Environment in which the very first pipeline step (the link click)
throws. -/
def envClickFails : PipelineEnv :=
  ⟨.error "boom", .ok (), fun _ => [], fun _ => .ok [], fun _ => .ok ()⟩

/-- Witness for C1: with a click that throws, the pipeline returns the
SKIPPED outcome with the view closed. -/
theorem pipeline_absorbs_errors_witness :
    processFilingRecord envClickFails = .ok ⟨false, true⟩ :=
  (pipeline_absorbs_errors envClickFails).2 "boom" rfl

/-- C9: `isValidPdf` accepts a buffer exactly when its length exceeds 100
bytes and its first four bytes are the signature 0x25 0x50 0x44 0x46; in
particular every buffer of at most 100 bytes is rejected even with the
correct signature, and every longer buffer with the signature is
accepted. -/
theorem isValidPdf_iff (buffer : List Nat) :
    isValidPdf buffer = true ↔
      100 < buffer.length ∧ buffer.take 4 = [0x25, 0x50, 0x44, 0x46] := by
  match buffer with
  | [] => simp [isValidPdf]
  | [a] => simp [isValidPdf]
  | [a, b] => simp [isValidPdf]
  | [a, b, c] => simp [isValidPdf]
  | a :: b :: c :: d :: rest =>
    simp [isValidPdf, List.getD, and_assoc]

/-- The loop visits at most `fuel + 1` pages and makes at most `fuel`
advance calls, for an arbitrary grid driver (honest or not): the page
counter itself bounds the iteration count. -/
lemma scrapeLoopAux_bounds {σ : Type} (rows : σ → Nat)
    (next : σ → Option σ) : ∀ (fuel : Nat) (s : σ),
      (scrapeLoopAux rows next fuel s).pagesVisited ≤ fuel + 1 ∧
        (scrapeLoopAux rows next fuel s).advanceCalls ≤ fuel := by
  intro fuel
  induction fuel with
  | zero => intro s; simp [scrapeLoopAux]
  | succ n ih =>
    intro s
    cases hn : next s with
    | none => simp [scrapeLoopAux, hn]
    | some s' =>
      have := ih s'
      simp [scrapeLoopAux, hn]
      omega

/-- On the honest driver the loop visits exactly the smaller of the
reported budget and the actual page count: either terminal signal (the
counter reaching the reported total, or the Next button disappearing)
stops the sweep. -/
lemma pagedVisited (pages : List Nat) : ∀ (fuel i : Nat),
    (scrapeLoopAux (pagedRows pages) (pagedNext pages) fuel i).pagesVisited
      = max 1 (min (fuel + 1) (pages.length - i)) := by
  intro fuel
  induction fuel with
  | zero =>
    intro i
    simp [scrapeLoopAux]
  | succ n ih =>
    intro i
    by_cases h : i + 1 < pages.length
    · simp [scrapeLoopAux, pagedNext, h, ih (i + 1)]
      omega
    · simp [scrapeLoopAux, pagedNext, h]
      omega

/-- C4: the simulated 3-page result set (pages of 2, 2, 1 rows, pager
summary "Page 1 of 3 (5 items)") drives exactly 2 `goToNextPage` calls and
processes 5 rows across 3 page visits; and in general the run visits
exactly `max 1 (min reported actual)` pages, so a false return from
advance ends the sweep at the actual last page even when the reported
total says more pages remain, and the loop terminates for every result
set no matter how wrong the reported total is. -/
theorem run_loop_terminal_signals :
    scrapeCommandRun (some "Page 1 of 3 (5 items)") (pagedRows [2, 2, 1])
        (pagedNext [2, 2, 1]) 0 = ⟨5, 2, 3⟩ ∧
      ∀ (pages : List Nat) (reported : Nat), 1 ≤ reported →
        (runScrape pages reported).pagesVisited
          = max 1 (min reported pages.length) := by
  constructor
  · rfl
  · intro pages reported h
    unfold runScrape scrapeRun
    rw [pagedVisited pages (reported - 1) 0]
    have hrep : reported - 1 + 1 = reported := by omega
    rw [hrep, Nat.sub_zero]

/-- Witness for C4: a reported total of 10 over 3 actual pages stops after
page 3 when advance returns false. -/
theorem run_loop_terminal_signals_witness :
    (runScrape [2, 2, 1] 10).pagesVisited = max 1 (min 10 3) :=
  run_loop_terminal_signals.2 [2, 2, 1] 10 (by decide)

/-- Per-page row count of a pager that is stuck on one grid state. -/
def stuckRows : Unit → Nat := fun _ => 2

/-- Advance on the stuck pager: the click succeeds but the grid state does
not change. -/
def stuckNext : Unit → Option Unit := fun _ => some ()

/-- Counterexample for C5: with a stuck pager (advance succeeds but the
page never changes) and a reported total of 3, the run keeps going — it
processes the same 2-row page 3 times (6 rows) and makes 2 advance calls —
instead of stopping after the first advance whose re-read state failed to
increment; the run loop never re-reads the pagination state and reports no
anomaly, so a conforming run's single anomalous advance call (at most 1)
is contradicted by the 2 calls observed. -/
theorem stuck_pager_no_anomaly_halt :
    scrapeCommandRun (some "Page 1 of 3 (6 items)") stuckRows stuckNext ()
        = ⟨6, 2, 3⟩ ∧
      1 < (scrapeCommandRun (some "Page 1 of 3 (6 items)") stuckRows
        stuckNext ()).advanceCalls := by
  constructor
  · rfl
  · decide

/-- C5 (amended): the run never loops forever on a stuck pager, but only
because the loop counter is bounded by the initially reported total-page
count — at most `max 1 reported` page visits and `reported` advance calls
for every driver, including one whose current page never increments; no
pagination re-read happens inside the loop and no anomaly is detected or
reported, the stuck page is simply re-processed until the counted total is
exhausted. -/
theorem scrape_run_bounded_no_reread :
    ∀ (σ : Type) (rows : σ → Nat) (next : σ → Option σ) (reported : Nat)
      (s : σ),
      (scrapeRun rows next reported s).pagesVisited ≤ max 1 reported ∧
        (scrapeRun rows next reported s).advanceCalls ≤ reported := by
  intro σ rows next reported s
  have := scrapeLoopAux_bounds rows next (reported - 1) s
  unfold scrapeRun
  omega

lemma mem_dropWhile_of_neg {p : Char → Bool} {c : Char} (hc : p c = false) :
    ∀ {l : List Char}, c ∈ l → c ∈ l.dropWhile p := by
  intro l
  induction l with
  | nil => intro h; cases h
  | cons a rest ih =>
    intro h
    by_cases ha : p a = true
    · rw [List.dropWhile_cons_of_pos ha]
      rcases List.mem_cons.mp h with h1 | h2
      · subst h1; rw [hc] at ha; cases ha
      · exact ih h2
    · rw [List.dropWhile_cons_of_neg (by simpa using ha)]
      exact h

lemma mem_of_mem_jsTrim {c : Char} {l : List Char} (h : c ∈ jsTrim l) :
    c ∈ l := by
  unfold jsTrim at h
  rw [List.mem_reverse] at h
  have h1 := (List.dropWhile_sublist (l := (l.dropWhile isWs).reverse) isWs).mem h
  rw [List.mem_reverse] at h1
  exact (List.dropWhile_sublist (l := l) isWs).mem h1

lemma mem_jsTrim_of_mem {c : Char} (hc : isWs c = false) {l : List Char}
    (h : c ∈ l) : c ∈ jsTrim l := by
  unfold jsTrim
  rw [List.mem_reverse]
  exact mem_dropWhile_of_neg hc (List.mem_reverse.mpr (mem_dropWhile_of_neg hc h))

lemma jsTrim_eq_self {l : List Char} (h : ∀ c ∈ l, isWs c = false) :
    jsTrim l = l := by
  unfold jsTrim
  have h1 : l.dropWhile isWs = l := by
    cases l with
    | nil => rfl
    | cons a rest =>
      exact List.dropWhile_cons_of_neg (by simp [h a (List.mem_cons_self a rest)])
  rw [h1]
  have h2 : l.reverse.dropWhile isWs = l.reverse := by
    cases hr : l.reverse with
    | nil => rfl
    | cons a rest =>
      have ha : a ∈ l := List.mem_reverse.mp (hr ▸ List.mem_cons_self a rest)
      exact List.dropWhile_cons_of_neg (by simp [h a ha])
  rw [h2, List.reverse_reverse]

lemma splitChars_cons_self (sep : Char) (l : List Char) :
    splitChars sep (sep :: l) = [] :: splitChars sep l := by
  conv_lhs => unfold splitChars
  simp

lemma splitChars_cons_ne (sep c : Char) (l : List Char) (hc : ¬ c = sep) :
    splitChars sep (c :: l) =
      match splitChars sep l with
      | [] => [[c]]
      | g :: gs => (c :: g) :: gs := by
  conv_lhs => unfold splitChars
  simp [hc]

lemma splitChars_ne_nil (sep : Char) (l : List Char) :
    splitChars sep l ≠ [] := by
  cases l with
  | nil => simp [splitChars]
  | cons c rest =>
    by_cases h : c = sep
    · subst h; rw [splitChars_cons_self]; simp
    · rw [splitChars_cons_ne sep c rest h]
      match splitChars sep rest with
      | [] => simp
      | g :: gs => simp

lemma splitChars_of_not_mem {sep : Char} :
    ∀ {l : List Char}, sep ∉ l → splitChars sep l = [l] := by
  intro l
  induction l with
  | nil => intro _; rfl
  | cons c rest ih =>
    intro h
    have hc : ¬ c = sep := fun he => h (he ▸ List.mem_cons_self c rest)
    have hrest : sep ∉ rest := fun hm => h (List.mem_cons_of_mem c hm)
    rw [splitChars_cons_ne sep c rest hc, ih hrest]

lemma splitChars_append {sep : Char} :
    ∀ {a : List Char}, sep ∉ a → ∀ (rest : List Char),
      splitChars sep (a ++ sep :: rest) = a :: splitChars sep rest := by
  intro a
  induction a with
  | nil =>
    intro _ rest
    simp [splitChars_cons_self]
  | cons c tail ih =>
    intro h rest
    have hc : ¬ c = sep := fun he => h (he ▸ List.mem_cons_self c tail)
    have htail : sep ∉ tail := fun hm => h (List.mem_cons_of_mem c hm)
    rw [List.cons_append, splitChars_cons_ne sep c _ hc, ih htail rest]

lemma splitChars_two_le {sep : Char} :
    ∀ {l : List Char}, sep ∈ l → 2 ≤ (splitChars sep l).length := by
  intro l
  induction l with
  | nil => intro h; cases h
  | cons c rest ih =>
    intro h
    by_cases hc : c = sep
    · subst hc
      rw [splitChars_cons_self]
      have h0 : 0 < (splitChars c rest).length :=
        List.length_pos.mpr (splitChars_ne_nil c rest)
      simp
      omega
    · have hrest : sep ∈ rest := by
        rcases List.mem_cons.mp h with h1 | h2
        · exact absurd h1.symm hc
        · exact h2
      have h2 := ih hrest
      rw [splitChars_cons_ne sep c rest hc]
      match hx : splitChars sep rest with
      | [] => exact absurd hx (splitChars_ne_nil sep rest)
      | g :: gs =>
        rw [hx] at h2
        simp at h2 ⊢
        omega

/-- A decimal digit is not whitespace. -/
lemma digit_not_ws {c : Char} (h : digitChar c = true) : isWs c = false := by
  simp [digitChar] at h
  simp [isWs]
  omega

/-- A list of decimal digits contains no slash. -/
lemma slash_not_mem_of_digits {l : List Char}
    (h : ∀ c ∈ l, digitChar c = true) : '/' ∉ l := by
  intro hm
  have := h _ hm
  simp [digitChar] at this

/-- A list of decimal digits contains no dash. -/
lemma dash_not_mem_of_digits {l : List Char}
    (h : ∀ c ∈ l, digitChar c = true) : '-' ∉ l := by
  intro hm
  have := h _ hm
  simp [digitChar] at this

/-- A string with a nonempty character list is not the empty string. -/
lemma ne_empty_of_data {s : String} (h : s.data ≠ []) : (s == "") = false := by
  cases hs : s == ""
  · rfl
  · have : s = "" := (beq_iff_eq (a := s) (b := "")).mp hs
    rw [this] at h
    simp at h

/-- The record extractor returns the null sentinel exactly when a required
source text (form type or filing date) is null or empty. -/
lemma extract_ok_none_iff (ft fd fn cl cf cm : Option String) :
    extractFilingRecord ft fd fn cl cf cm = .ok none ↔
      (jsFalsy fd = true ∨ jsFalsy ft = true) := by
  unfold extractFilingRecord
  by_cases h : (jsFalsy fd || jsFalsy ft) = true
  · simp [h]
    rcases Bool.or_eq_true_iff.mp h with h1 | h1 <;> simp [h1]
  · simp at h
    simp [h]
    split <;> simp

/-- With both required fields present but no slash in the date text, the
destructured `day` is undefined and `day.padStart` throws. -/
lemma extract_no_slash (ft : Option String) (s : String)
    (fn cl cf cm : Option String) (hft : jsFalsy ft = false)
    (hs : s.data ≠ []) (hslash : '/' ∉ s.data) :
    extractFilingRecord ft (some s) fn cl cf cm = .error "TypeError" := by
  have hguard : jsFalsy (some s) = false := ne_empty_of_data hs
  have htr : '/' ∉ jsTrim s.data := fun hm => hslash (mem_of_mem_jsTrim hm)
  have hsplit : splitChars '/' (jsTrim s.data) = [jsTrim s.data] :=
    splitChars_of_not_mem htr
  simp [extractFilingRecord, hguard, hft, jsSplit, jsTrimStr, hsplit]

/-- With both required fields present and at least one slash in the date
text, the extractor returns a record whose optional fields are the
defaulted texts. -/
lemma extract_with_slash (ft : Option String) (s : String)
    (fn cl cf cm : Option String) (hft : jsFalsy ft = false)
    (hslash : '/' ∈ s.data) :
    ∃ r, extractFilingRecord ft (some s) fn cl cf cm = .ok (some r) ∧
      r.formType = jsTrimStr (ft.getD "") ∧
      r.filerName = optText fn ∧ r.candidateLastName = optText cl ∧
      r.candidateFirstName = optText cf ∧
      r.candidateMiddleName = optText cm := by
  have hs : s.data ≠ [] := by
    intro h
    rw [h] at hslash
    cases hslash
  have hguard : jsFalsy (some s) = false := ne_empty_of_data hs
  have htr : '/' ∈ jsTrim s.data := mem_jsTrim_of_mem (by decide) hslash
  have hlen : 2 ≤ (splitChars '/' (jsTrim s.data)).length :=
    splitChars_two_le htr
  have h1 : 1 < (jsSplit '/' (jsTrimStr s)).length := by
    simp [jsSplit, jsTrimStr]
    omega
  unfold extractFilingRecord
  rw [hguard, hft]
  simp only [Bool.or_self, Bool.false_or, if_false, Option.getD_some]
  rw [List.getElem?_eq_getElem h1]
  exact ⟨_, rfl, rfl, rfl, rfl, rfl, rfl⟩

/-- On a well-shaped date text built from three digit groups the extractor
splits exactly into month, day and year and produces the padded ISO
date. -/
lemma extract_md_y (ft m d y : String) (hft : jsFalsy (some ft) = false)
    (hm : ∀ c ∈ m.data, digitChar c = true)
    (hd : ∀ c ∈ d.data, digitChar c = true)
    (hy : ∀ c ∈ y.data, digitChar c = true) :
    extractFilingRecord (some ft) (some (m ++ "/" ++ d ++ "/" ++ y))
        none none none none
      = .ok (some ⟨jsTrimStr ft,
          y ++ "-" ++ padStart 2 '0' m ++ "-" ++ padStart 2 '0' d,
          "", "", "", ""⟩) := by
  have e : ∀ a b : String, (a ++ b).data = a.data ++ b.data := fun a b => rfl
  have hdata : (m ++ "/" ++ d ++ "/" ++ y).data
      = m.data ++ '/' :: (d.data ++ '/' :: y.data) := by
    rw [e, e, e, e]
    simp [List.append_assoc]
  have hnws : ∀ c ∈ (m ++ "/" ++ d ++ "/" ++ y).data, isWs c = false := by
    rw [hdata]
    intro c hc
    simp only [List.mem_append, List.mem_cons] at hc
    rcases hc with h1 | h1 | h1 | h1 | h1
    · exact digit_not_ws (hm c h1)
    · subst h1; decide
    · exact digit_not_ws (hd c h1)
    · subst h1; decide
    · exact digit_not_ws (hy c h1)
  have htrim : jsTrim (m ++ "/" ++ d ++ "/" ++ y).data
      = (m ++ "/" ++ d ++ "/" ++ y).data := jsTrim_eq_self hnws
  have hsplit : splitChars '/' (m ++ "/" ++ d ++ "/" ++ y).data
      = [m.data, d.data, y.data] := by
    rw [hdata, splitChars_append (slash_not_mem_of_digits hm),
      splitChars_append (slash_not_mem_of_digits hd),
      splitChars_of_not_mem (slash_not_mem_of_digits hy)]
  have hparts : jsSplit '/' (jsTrimStr (m ++ "/" ++ d ++ "/" ++ y))
      = [m, d, y] := by
    show (splitChars '/' (jsTrim (m ++ "/" ++ d ++ "/" ++ y).data)).map
        (fun l => (⟨l⟩ : String)) = [m, d, y]
    rw [htrim, hsplit]
    rfl
  have hne : (m ++ "/" ++ d ++ "/" ++ y).data ≠ [] := by
    rw [hdata]
    simp
  have hguard : jsFalsy (some (m ++ "/" ++ d ++ "/" ++ y)) = false :=
    ne_empty_of_data hne
  unfold extractFilingRecord
  rw [hguard, hft]
  simp only [Bool.or_self, Bool.false_or, if_false, Option.getD_some]
  rw [hparts]
  rfl

/-- `convertDateFormat` on a well-shaped ISO date splits into year, month
and day and rebuilds the slash form. -/
lemma convert_iso (y m d : String)
    (hy : ∀ c ∈ y.data, digitChar c = true)
    (hm : ∀ c ∈ m.data, digitChar c = true)
    (hd : ∀ c ∈ d.data, digitChar c = true) :
    convertDateFormat (y ++ "-" ++ m ++ "-" ++ d)
      = m ++ "/" ++ d ++ "/" ++ y := by
  have e : ∀ a b : String, (a ++ b).data = a.data ++ b.data := fun a b => rfl
  have hdata : (y ++ "-" ++ m ++ "-" ++ d).data
      = y.data ++ '-' :: (m.data ++ '-' :: d.data) := by
    rw [e, e, e, e]
    simp [List.append_assoc]
  have hsplit : splitChars '-' (y ++ "-" ++ m ++ "-" ++ d).data
      = [y.data, m.data, d.data] := by
    rw [hdata, splitChars_append (dash_not_mem_of_digits hy),
      splitChars_append (dash_not_mem_of_digits hm),
      splitChars_of_not_mem (dash_not_mem_of_digits hd)]
  have hparts : jsSplit '-' (y ++ "-" ++ m ++ "-" ++ d) = [y, m, d] := by
    show (splitChars '-' (y ++ "-" ++ m ++ "-" ++ d).data).map
        (fun l => (⟨l⟩ : String)) = [y, m, d]
    rw [hsplit]
    rfl
  unfold convertDateFormat
  rw [hparts]
  rfl

/-- Padding a 1- or 2-character string to width 2 yields exactly width 2. -/
lemma padStart_length2 (s : String) (h1 : s.data ≠ []) (h2 : s.length ≤ 2) :
    (padStart 2 '0' s).length = 2 := by
  unfold padStart
  by_cases h : 2 ≤ s.length
  · simp only [h, if_pos]
    omega
  · simp only [h, if_neg, if_false]
    show (List.replicate (2 - s.length) '0' ++ s.data).length = 2
    have h0 : 0 < s.data.length := List.length_pos.mpr h1
    have hsl : s.length = s.data.length := rfl
    simp [List.length_append]
    omega

/-- Padding an already 2-character string is the identity. -/
lemma padStart_eq_self (s : String) (h : 2 ≤ s.length) :
    padStart 2 '0' s = s := by
  simp [padStart, h]

/-- C8: the extractor's date normalization turns structurally valid
`M/D/YYYY` text (month and day one or two digits, not necessarily
zero-padded) into the zero-padded `YYYY-MM-DD` form — the year is kept
verbatim and month and day are left-padded with '0' to exactly two
characters; in particular "6/30/2025" normalizes to "2025-06-30". -/
theorem date_normalization_zero_pads :
    (extractFilingRecord (some "410") (some "6/30/2025") none none none none
      = .ok (some ⟨"410", "2025-06-30", "", "", "", ""⟩)) ∧
    ∀ (ft m d y : String), jsFalsy (some ft) = false →
      (∀ c ∈ m.data, digitChar c = true) →
      (∀ c ∈ d.data, digitChar c = true) →
      (∀ c ∈ y.data, digitChar c = true) →
      m.data ≠ [] → d.data ≠ [] → m.length ≤ 2 → d.length ≤ 2 →
      ∃ r, extractFilingRecord (some ft) (some (m ++ "/" ++ d ++ "/" ++ y))
          none none none none = .ok (some r) ∧
        r.filingDate
          = y ++ "-" ++ padStart 2 '0' m ++ "-" ++ padStart 2 '0' d ∧
        (padStart 2 '0' m).length = 2 ∧ (padStart 2 '0' d).length = 2 := by
  constructor
  · rfl
  · intro ft m d y hft hm hd hy hmne hdne hm2 hd2
    exact ⟨_, extract_md_y ft m d y hft hm hd hy, rfl,
      padStart_length2 m hmne hm2, padStart_length2 d hdne hd2⟩

/-- Witness for C8: the general statement instantiated at "6/30/2025". -/
theorem date_normalization_zero_pads_witness :
    ∃ r, extractFilingRecord (some "410")
        (some ("6" ++ "/" ++ "30" ++ "/" ++ "2025")) none none none none
        = .ok (some r) ∧
      r.filingDate
        = "2025" ++ "-" ++ padStart 2 '0' "6" ++ "-" ++ padStart 2 '0' "30" ∧
      (padStart 2 '0' "6").length = 2 ∧ (padStart 2 '0' "30").length = 2 :=
  date_normalization_zero_pads.2 "410" "6" "30" "2025" (by decide)
    (by decide) (by decide) (by decide) (by decide) (by decide) (by decide)
    (by decide)

/-- C10: round trip of the two date conversions — feeding
`convertDateFormat`'s MM/DD/YYYY output of a zero-padded ISO date back
into the record extractor yields a record whose filingDate is the
original ISO string. -/
theorem date_conversion_roundtrip :
    ∀ (ft y m d : String), jsFalsy (some ft) = false →
      (∀ c ∈ y.data, digitChar c = true) →
      (∀ c ∈ m.data, digitChar c = true) →
      (∀ c ∈ d.data, digitChar c = true) →
      y.length = 4 → m.length = 2 → d.length = 2 →
      ∃ r, extractFilingRecord (some ft)
          (some (convertDateFormat (y ++ "-" ++ m ++ "-" ++ d)))
          none none none none = .ok (some r) ∧
        r.filingDate = y ++ "-" ++ m ++ "-" ++ d := by
  intro ft y m d hft hy hm hd hy4 hm2 hd2
  rw [convert_iso y m d hy hm hd]
  refine ⟨_, extract_md_y ft m d y hft hm hd hy, ?_⟩
  rw [padStart_eq_self m (by omega), padStart_eq_self d (by omega)]

/-- Witness for C10: the round trip at "2025-06-30". -/
theorem date_conversion_roundtrip_witness :
    ∃ r, extractFilingRecord (some "410")
        (some (convertDateFormat ("2025" ++ "-" ++ "06" ++ "-" ++ "30")))
        none none none none = .ok (some r) ∧
      r.filingDate = "2025" ++ "-" ++ "06" ++ "-" ++ "30" :=
  date_conversion_roundtrip "410" "2025" "06" "30" (by decide) (by decide)
    (by decide) (by decide) (by decide) (by decide) (by decide)

/-- C3 (amended): a non-empty filing-date text with no slash at all is not
a skippable condition — the extractor throws a TypeError (the destructured
day field is undefined); a malformed text that does contain a slash
produces a record (with a garbage date), not the null sentinel.  The null
sentinel arises only from null/empty required fields. -/
theorem malformed_date_not_skippable :
    ∀ (ft : Option String) (s : String) (fn cl cf cm : Option String),
      jsFalsy ft = false → s.data ≠ [] →
      ('/' ∉ s.data →
        extractFilingRecord ft (some s) fn cl cf cm = .error "TypeError") ∧
      ('/' ∈ s.data →
        ∃ r, extractFilingRecord ft (some s) fn cl cf cm = .ok (some r)) := by
  intro ft s fn cl cf cm hft hs
  constructor
  · intro hslash
    exact extract_no_slash ft s fn cl cf cm hft hs hslash
  · intro hslash
    obtain ⟨r, hr, _⟩ := extract_with_slash ft s fn cl cf cm hft hslash
    exact ⟨r, hr⟩

/-- Counterexample for C3: on the malformed non-empty date "garbage" (no
slash) the extractor throws instead of returning the null sentinel. -/
theorem malformed_date_counterexample :
    extractFilingRecord (some "410") (some "garbage") none none none none
        = Except.error "TypeError" ∧
      extractFilingRecord (some "410") (some "garbage") none none none none
        ≠ Except.ok none := by
  constructor
  · rfl
  · intro h
    rw [show extractFilingRecord (some "410") (some "garbage") none none
        none none = Except.error "TypeError" from rfl] at h
    exact Except.noConfusion h

/-- Witness for C3 (amended): the no-slash branch at the input "junk". -/
theorem malformed_date_not_skippable_witness :
    extractFilingRecord (some "410") (some "junk") none none none none
      = .error "TypeError" :=
  (malformed_date_not_skippable (some "410") "junk" none none none none
    (by decide) (by decide)).1 (by decide)

/-- C7 (amended): the extractor returns the null sentinel exactly when a
required field (form type or filing date text) is null or empty; when both
required fields are present and the date text contains a slash it returns
a record whose optional fields default to the empty string (never null)
when their source text is absent.  When the date text has no slash the
extractor throws instead of returning a record. -/
theorem required_fields_sentinel :
    (∀ ft fd fn cl cf cm : Option String,
      extractFilingRecord ft fd fn cl cf cm = .ok none ↔
        (jsFalsy fd = true ∨ jsFalsy ft = true)) ∧
    (∀ (ft : Option String) (s : String) (fn cl cf cm : Option String),
      jsFalsy ft = false → '/' ∈ s.data →
      ∃ r, extractFilingRecord ft (some s) fn cl cf cm = .ok (some r) ∧
        (fn = none → r.filerName = "") ∧
        (cl = none → r.candidateLastName = "") ∧
        (cf = none → r.candidateFirstName = "") ∧
        (cm = none → r.candidateMiddleName = "")) := by
  constructor
  · exact extract_ok_none_iff
  · intro ft s fn cl cf cm hft hslash
    obtain ⟨r, hr, _, hfn, hcl, hcf, hcm⟩ :=
      extract_with_slash ft s fn cl cf cm hft hslash
    refine ⟨r, hr, ?_, ?_, ?_, ?_⟩
    · intro h; rw [hfn, h]; rfl
    · intro h; rw [hcl, h]; rfl
    · intro h; rw [hcf, h]; rfl
    · intro h; rw [hcm, h]; rfl

/-- Counterexample for C7: both required fields are present (non-null,
non-empty) yet the extractor returns no record at all — it throws on the
slash-free date text. -/
theorem required_fields_counterexample :
    jsFalsy (some "460") = false ∧ jsFalsy (some "baddate") = false ∧
      extractFilingRecord (some "460") (some "baddate") (some "Smith")
        none none none = Except.error "TypeError" :=
  ⟨rfl, rfl, rfl⟩

/-- Witness for C7 (amended): instantiated at a fully valid row with all
optional fields absent. -/
theorem required_fields_sentinel_witness :
    ∃ r, extractFilingRecord (some "410") (some "6/30/2025") none none none
        none = .ok (some r) ∧
      (none = (none : Option String) → r.filerName = "") ∧
      (none = (none : Option String) → r.candidateLastName = "") ∧
      (none = (none : Option String) → r.candidateFirstName = "") ∧
      (none = (none : Option String) → r.candidateMiddleName = "") :=
  required_fields_sentinel.2 (some "410") "6/30/2025" none none none none
    (by decide) (by decide)

/-- Updating only the file name leaves the natural key unchanged. -/
lemma keyOf_setFileName (v : String) (r : FilingRow) :
    keyOf (setFileName v r) = keyOf r := rfl

/-- The conditional update of the upsert leaves every row's key
unchanged. -/
lemma keyOf_upd (k : List String) (v : String) (r : FilingRow) :
    keyOf (if keyOf r == k then setFileName v r else r) = keyOf r := by
  split <;> rfl

/-- Under the UNIQUE-key invariant, the row found by the conflict lookup
is the only row the key filter selects. -/
lemma filter_eq_single_of_find {k : List String} :
    ∀ {l : List FilingRow}, l.Pairwise (fun a b => keyOf a ≠ keyOf b) →
      ∀ {x : FilingRow}, l.find? (fun r => keyOf r == k) = some x →
        l.filter (fun r => keyOf r == k) = [x] := by
  intro l
  induction l with
  | nil => intro _ x h; cases h
  | cons a rest ih =>
    intro hpw x hf
    by_cases ha : (keyOf a == k) = true
    · rw [List.find?_cons_of_pos rest ha] at hf
      have hax : a = x := Option.some.inj hf
      subst hax
      have hstep : List.filter (fun r => keyOf r == k) (a :: rest)
          = a :: List.filter (fun r => keyOf r == k) rest := by
        simp [List.filter_cons, ha]
      rw [hstep]
      have hrest : rest.filter (fun r => keyOf r == k) = [] := by
        rw [List.filter_eq_nil_iff]
        intro b hb hbk
        have hne := (List.pairwise_cons.mp hpw).1 b hb
        have hb1 : keyOf b = k := by simpa using hbk
        have ha1 : keyOf a = k := by simpa using ha
        exact hne (ha1.trans hb1.symm)
      rw [hrest]
    · rw [List.find?_cons_of_neg rest ha] at hf
      have hstep : List.filter (fun r => keyOf r == k) (a :: rest)
          = List.filter (fun r => keyOf r == k) rest := by
        simp [List.filter_cons, ha]
      rw [hstep]
      exact ih (List.pairwise_cons.mp hpw).2 hf

/-- INSERT OR REPLACE skips entries keyed on a different filing id. -/
lemma replaceBlob_cons_ne (a : Nat × List Nat) (l : List (Nat × List Nat))
    (fid : Nat) (b : List Nat) (ha : (a.1 == fid) = false) :
    replaceBlob (a :: l) fid b = a :: replaceBlob l fid b := by
  unfold replaceBlob
  rw [List.any_cons, ha, Bool.false_or]
  by_cases hl : (l.any fun p => p.1 == fid) = true
  · rw [hl, if_pos rfl, if_pos rfl, List.map_cons]
    have hc : ¬ ((a.1 == fid) = true) := by simp [ha]
    rw [if_neg hc]
  · simp only [Bool.not_eq_true] at hl
    rw [hl]
    have hnc : ¬ ((false : Bool) = true) := by simp
    rw [if_neg hnc, if_neg hnc, List.cons_append]

/-- After INSERT OR REPLACE, the blob stored under the filing id is the
newly written one. -/
lemma lookup_replaceBlob (fid : Nat) (b : List Nat) :
    ∀ l : List (Nat × List Nat),
      lookupBlob (replaceBlob l fid b) fid = some b := by
  intro l
  induction l with
  | nil => simp [replaceBlob, lookupBlob]
  | cons a rest ih =>
    by_cases ha : (a.1 == fid) = true
    · have hany : ((a :: rest).any fun p => p.1 == fid) = true := by
        simp [List.any_cons, ha]
      unfold replaceBlob
      rw [if_pos hany, List.map_cons, if_pos ha]
      unfold lookupBlob
      rw [List.find?_cons_of_pos _ (by simp)]
      rfl
    · have hne : (a.1 == fid) = false := by simpa using ha
      rw [replaceBlob_cons_ne a rest fid b hne]
      unfold lookupBlob
      have hstep : List.find? (fun p => p.1 == fid)
          (a :: replaceBlob rest fid b)
          = List.find? (fun p => p.1 == fid) (replaceBlob rest fid b) := by
        simp [List.find?_cons, ha]
      rw [hstep]
      exact ih

/-- One `savePdfToDb` call on a well-formed database: it succeeds,
preserves the UNIQUE-key invariant, leaves exactly one row with the
record's natural key whose file name is the derived one, and the blob
stored under that row's id is the written buffer. -/
lemma savePdf_step (db : Db) (record : FilingRecord) (b : List Nat)
    (hwf : DbWF db) :
    ∃ d row, savePdfToDb (some db) record b = some d ∧ DbWF d ∧
      d.filings.filter (fun r => keyOf r == recKeyOf record) = [row] ∧
      keyOf row = recKeyOf record ∧
      row.file_name = pdfFileName record ∧
      lookupBlob d.filing_pdfs row.rowId = some b := by
  cases hf : findConflict db.filings (recKeyOf record) with
  | some row0 =>
    unfold findConflict at hf
    have hk0 := List.find?_some hf
    have hk : (keyOf row0 == recKeyOf record) = true := hk0
    refine ⟨⟨db.filings.map (fun r =>
        if keyOf r == recKeyOf record then setFileName (pdfFileName record) r
        else r),
      replaceBlob db.filing_pdfs row0.rowId b, db.nextId⟩,
      setFileName (pdfFileName record) row0, ?_, ?_, ?_, ?_, ?_, ?_⟩
    · simp [savePdfToDb, upsertFiling, findConflict, hf]
    · exact List.Pairwise.map _
        (fun a c h => by rw [keyOf_upd, keyOf_upd]; exact h) hwf
    · rw [List.filter_map]
      have hcong : List.filter ((fun r => keyOf r == recKeyOf record) ∘
            (fun r => if keyOf r == recKeyOf record then
              setFileName (pdfFileName record) r else r)) db.filings
          = List.filter (fun r => keyOf r == recKeyOf record) db.filings :=
        List.filter_congr (fun a _ => by
          simp only [Function.comp]
          rw [keyOf_upd])
      rw [hcong, filter_eq_single_of_find hwf hf]
      simp [hk]
      intro h
      exact absurd (by simpa using hk) h
    · rw [keyOf_setFileName]
      simpa using hk
    · rfl
    · exact lookup_replaceBlob row0.rowId b db.filing_pdfs
  | none =>
    unfold findConflict at hf
    refine ⟨⟨db.filings ++
        [⟨db.nextId, record.formType, record.filingDate, record.filerName,
          record.candidateLastName, record.candidateFirstName,
          record.candidateMiddleName, pdfFileName record⟩],
      replaceBlob db.filing_pdfs db.nextId b, db.nextId + 1⟩,
      ⟨db.nextId, record.formType, record.filingDate, record.filerName,
        record.candidateLastName, record.candidateFirstName,
        record.candidateMiddleName, pdfFileName record⟩,
      ?_, ?_, ?_, rfl, rfl, ?_⟩
    · simp [savePdfToDb, upsertFiling, findConflict, hf]
    · show List.Pairwise _ _
      rw [List.pairwise_append]
      refine ⟨hwf, by simp, ?_⟩
      intro a ha c hc
      have hc1 : c = ⟨db.nextId, record.formType, record.filingDate,
          record.filerName, record.candidateLastName,
          record.candidateFirstName, record.candidateMiddleName,
          pdfFileName record⟩ := by simpa using hc
      subst hc1
      have hnot := List.find?_eq_none.mp hf a ha
      intro he
      apply hnot
      simp only [keyOf, recKeyOf] at he ⊢
      rw [he]
      simp
    · rw [List.filter_append]
      have h1 : db.filings.filter (fun r => keyOf r == recKeyOf record)
          = [] :=
        List.filter_eq_nil_iff.mpr (fun a ha => List.find?_eq_none.mp hf a ha)
      rw [h1]
      simp [List.filter_cons, keyOf, recKeyOf]
    · exact lookup_replaceBlob db.nextId b db.filing_pdfs

/-- C2: persisting the same natural key twice (any starting database that
satisfies the schema's UNIQUE constraint, any two buffers) leaves exactly
one metadata row with that key — never a duplicate — with the derived
file name, and the blob stored in filing_pdfs under that row's id equals
the bytes of the second write. -/
theorem savePdfToDb_upsert_idempotent (db : Db) (record : FilingRecord)
    (b1 b2 : List Nat) (hwf : DbWF db) :
    ∃ d2, savePdfToDb (savePdfToDb (some db) record b1) record b2
        = some d2 ∧
      (d2.filings.filter (fun r => keyOf r == recKeyOf record)).length = 1 ∧
      ∃ row, row ∈ d2.filings ∧ keyOf row = recKeyOf record ∧
        row.file_name = pdfFileName record ∧
        lookupBlob d2.filing_pdfs row.rowId = some b2 := by
  obtain ⟨d1, row1, hsave1, hwf1, hfil1, hkey1, hfn1, hblob1⟩ :=
    savePdf_step db record b1 hwf
  obtain ⟨d2, row2, hsave2, hwf2, hfil2, hkey2, hfn2, hblob2⟩ :=
    savePdf_step d1 record b2 hwf1
  refine ⟨d2, ?_, ?_, row2, ?_, hkey2, hfn2, hblob2⟩
  · rw [hsave1]
    exact hsave2
  · rw [hfil2]
    rfl
  · have hmem : row2 ∈ d2.filings.filter
        (fun r => keyOf r == recKeyOf record) := by
      rw [hfil2]
      exact List.mem_cons_self row2 []
    exact List.mem_of_mem_filter hmem

/-- Witness for C2: two writes of the same record into an empty database
with different buffers. -/
theorem savePdfToDb_upsert_idempotent_witness :
    ∃ d2, savePdfToDb (savePdfToDb (some ⟨[], [], 1⟩)
          ⟨"410", "2025-06-30", "Smith", "S", "J", ""⟩ [1, 2, 3])
        ⟨"410", "2025-06-30", "Smith", "S", "J", ""⟩ [7, 7] = some d2 ∧
      (d2.filings.filter (fun r =>
        keyOf r == recKeyOf ⟨"410", "2025-06-30", "Smith", "S", "J", ""⟩)).length
        = 1 ∧
      ∃ row, row ∈ d2.filings ∧
        keyOf row = recKeyOf ⟨"410", "2025-06-30", "Smith", "S", "J", ""⟩ ∧
        row.file_name
          = pdfFileName ⟨"410", "2025-06-30", "Smith", "S", "J", ""⟩ ∧
        lookupBlob d2.filing_pdfs row.rowId = some [7, 7] :=
  savePdfToDb_upsert_idempotent ⟨[], [], 1⟩
    ⟨"410", "2025-06-30", "Smith", "S", "J", ""⟩ [1, 2, 3] [7, 7]
    List.Pairwise.nil

/-- A frame that carries the pdf object and its reference, used to model a
nested frame that attaches only after the first poll. -/
def lateFrame : Frame :=
  ⟨.ok (1, some "PdfHandler.axd?key=d37d278cf11448e1afa2028e43760d1f")⟩

/-- Environment whose frame list is empty at the first check (attempt 0)
but contains the matching frame from the next poll on; the fetch would
return a valid PDF, so only the single-attempt frame scan stands between
this row and success. -/
def envLateFrame : PipelineEnv :=
  ⟨.ok (), .ok (), fun t => if t = 0 then [] else [lateFrame],
    fun _ => .ok ((0x25 :: 0x50 :: 0x44 :: 0x46 :: List.replicate 97 0)),
    fun _ => .ok ()⟩

/-- Environment with no frames at any attempt. -/
def envNoFrames : PipelineEnv :=
  ⟨.ok (), .ok (), fun _ => [], fun _ => .ok [], fun _ => .ok ()⟩

/-- C6 (amended): the credential resolver makes exactly one pass over the
frames attached at the moment of the check — there is no retry loop in the
pipeline — and a miss on that single attempt makes the row SKIPPED
(absence, not an error), regardless of what later polls would find. -/
theorem credential_resolver_single_attempt :
    ∀ env : PipelineEnv, extractPdfUrlFromIframe (env.frameSeq 0) = none →
      processFilingRecord env = .ok ⟨false, true⟩ := by
  intro env h
  unfold processFilingRecord processBody
  cases hc : env.clickStep with
  | error e => rfl
  | ok u =>
    cases hs : env.settleStep with
    | error e => rfl
    | ok v =>
      rw [h]

/-- Counterexample for C6: the frame is absent at the first check but
present (with a matching key and a valid PDF behind it) from the second
poll on; a resolver with the claimed 5-attempt budget would resolve it,
but the pipeline returns SKIPPED. -/
theorem credential_resolver_no_retry_counterexample :
    extractPdfUrlFromIframe (envLateFrame.frameSeq 0) = none ∧
      extractPdfUrlFromIframe (envLateFrame.frameSeq 1)
        = some "PdfHandler.axd?key=d37d278cf11448e1afa2028e43760d1f" ∧
      extractSessionKey "PdfHandler.axd?key=d37d278cf11448e1afa2028e43760d1f"
        = some "d37d278cf11448e1afa2028e43760d1f" ∧
      isValidPdf (0x25 :: 0x50 :: 0x44 :: 0x46 :: List.replicate 97 0)
        = true ∧
      processFilingRecord envLateFrame = .ok ⟨false, true⟩ :=
  ⟨rfl, rfl, rfl, by decide, rfl⟩

/-- Witness for C6 (amended): with no frames attached at the first check
the row is SKIPPED. -/
theorem credential_resolver_single_attempt_witness :
    processFilingRecord envNoFrames = .ok ⟨false, true⟩ :=
  credential_resolver_single_attempt envNoFrames rfl
